import Mathlib

/-!
Verification development for the piece-visibility resolution engine and the
trigger-polling deduplication protocol of the `commons` repository.

The visibility definitions are shallow embeddings of
`packages/server/api/src/app/ce/pieces/cm-piece-metadata-service-hooks.ts`
(`filterPieces`) and
`packages/server/api/src/app/ce/pieces/cm-platform-piece.controller.ts`
(the three endpoint handlers, including `togglePieceVisibility`).
JavaScript arrays become `List`, nullable columns become `Option`, thrown
`ActivepiecesError`s become `Except ErrorCode`, and the partial-update object
passed to `platformService.update` becomes `PlatformUpdate` with `Option`
fields (a `none` field is absent from the update object and leaves the stored
column unchanged).

The Trigger Poll Coordinator has no implementation in the corpus, so its
definitions are modelled from the specification text (sections 3, 4.2 and 8)
and are marked as such in their doc comments.
-/

/-- Enum `FilteredPieceBehavior` from `@activepieces/shared`: ALLOWED is
allow-list semantics, BLOCKED is deny-list semantics. -/
inductive FilteredPieceBehavior
  | ALLOWED
  | BLOCKED
deriving DecidableEq, Repr

/-- Error codes used by the embedded handlers (`ErrorCode.AUTHORIZATION` for
the admin check, `ENTITY_NOT_FOUND` for `getOneOrThrow` / `getOneOrFail`). -/
inductive ErrorCode
  | AUTHORIZATION
  | ENTITY_NOT_FOUND
deriving DecidableEq, Repr

/-- Platform role of a user; the controller only distinguishes ADMIN from
everything else. -/
inductive PlatformRole
  | ADMIN
  | MEMBER
deriving DecidableEq, Repr

/-- The slice of the platform entity the embedded code touches, plus two
representative columns (`name`, `ownerId`) that none of the embedded
endpoints write, standing in for the remaining platform fields.
`filteredPieceNames` and `filteredPieceBehavior` are nullable columns in the
entity, hence `Option`. -/
structure Platform where
  id : String
  name : String
  ownerId : String
  filteredPieceNames : Option (List String)
  filteredPieceBehavior : Option FilteredPieceBehavior
deriving DecidableEq, Repr

/-- The partial-update object passed to `platformService.update`: a `none`
field is absent from the update object, so the stored column is unchanged. -/
structure PlatformUpdate where
  id : String
  filteredPieceNames : Option (List String)
  filteredPieceBehavior : Option FilteredPieceBehavior
deriving DecidableEq, Repr

/-- A piece as seen by the filtering hook: only `name` is interpreted; the
rest of the metadata is opaque and represented by `displayName`. -/
structure PieceDescriptor where
  name : String
  displayName : String
deriving DecidableEq, Repr

/-- Parameters of `cmPieceMetadataServiceHooks.filterPieces`. -/
structure FilterPiecesParams where
  platformId : Option String
  includeHidden : Bool
  pieces : List PieceDescriptor
deriving DecidableEq, Repr

/-- A user record as consulted by `isPlatformAdmin`. -/
structure User where
  id : String
  platformRole : PlatformRole
deriving DecidableEq, Repr

/-- The request principal: the authenticated user's id and the platform id
(`request.principal.id` and `request.principal.platform.id`). -/
structure Principal where
  id : String
  platformId : String
deriving DecidableEq, Repr

/-- Response body of the GET filtered-pieces-configuration endpoint. -/
structure FilteredPiecesConfig where
  filteredPieceNames : List String
  filteredPieceBehavior : FilteredPieceBehavior
deriving DecidableEq, Repr

/-- Modelled from the spec: `defaultPieceHooks.filterPieces` lives in
`packages/server/api/src/app/pieces/piece-metadata-service/hooks`, which is
not part of the corpus; per the specification the default hook applies no
platform visibility filtering, so it returns the candidate pieces
unchanged. -/
def defaultFilterPieces (params : FilterPiecesParams) : List PieceDescriptor :=
  params.pieces

/-- Core of `cmPieceMetadataServiceHooks.filterPieces` after the platform has
been fetched (`cm-piece-metadata-service-hooks.ts` lines 17-27): an absent or
empty `filteredPieceNames` returns the candidates unchanged; otherwise
ALLOWED keeps exactly the named pieces and any other behavior (BLOCKED or
absent) keeps exactly the unnamed pieces. -/
def resolvePieces (platform : Platform) (pieces : List PieceDescriptor) : List PieceDescriptor :=
  match platform.filteredPieceNames with
  | none => pieces
  | some filteredPieceNames =>
    if filteredPieceNames.isEmpty then
      pieces
    else if platform.filteredPieceBehavior = some FilteredPieceBehavior.ALLOWED then
      pieces.filter (fun piece => filteredPieceNames.contains piece.name)
    else
      pieces.filter (fun piece => !(filteredPieceNames.contains piece.name))

/-- Visibility of a single piece name under a platform configuration; by
`mem_resolvePieces` below this is exactly membership in the output of the
filtering operation over any candidate set containing the piece. -/
def isVisible (platform : Platform) (pieceName : String) : Bool :=
  match platform.filteredPieceNames with
  | none => true
  | some filteredPieceNames =>
    if filteredPieceNames.isEmpty then
      true
    else if platform.filteredPieceBehavior = some FilteredPieceBehavior.ALLOWED then
      filteredPieceNames.contains pieceName
    else
      !(filteredPieceNames.contains pieceName)

/-- `platformService.getOneOrThrow`: look a platform up by id in the store,
throwing `ENTITY_NOT_FOUND` when it is missing. -/
def getOneOrThrow (store : List Platform) (platformId : String) : Except ErrorCode Platform :=
  match store.find? (fun platform => platform.id == platformId) with
  | some platform => Except.ok platform
  | none => Except.error ErrorCode.ENTITY_NOT_FOUND

/-- `cmPieceMetadataServiceHooks.filterPieces`: with `includeHidden` or a nil
`platformId` the default hook is used; otherwise the platform is fetched and
its allow/block configuration applied (the inner `none` case is unreachable
because of the guard, and mirrors it). -/
def filterPieces (store : List Platform) (params : FilterPiecesParams) :
    Except ErrorCode (List PieceDescriptor) :=
  if params.includeHidden || params.platformId.isNone then
    Except.ok (defaultFilterPieces params)
  else
    match params.platformId with
    | none => Except.ok (defaultFilterPieces params)
    | some platformId =>
      match getOneOrThrow store platformId with
      | Except.error e => Except.error e
      | Except.ok platform => Except.ok (resolvePieces platform params.pieces)

/-- Apply a partial update to a platform record: only the columns present in
the update object are written, every other column keeps its stored value. -/
def applyUpdate (platform : Platform) (patch : PlatformUpdate) : Platform :=
  { id := platform.id
    name := platform.name
    ownerId := platform.ownerId
    filteredPieceNames :=
      match patch.filteredPieceNames with
      | some value => some value
      | none => platform.filteredPieceNames
    filteredPieceBehavior :=
      match patch.filteredPieceBehavior with
      | some value => some value
      | none => platform.filteredPieceBehavior }

/-- `platformService.update` over the store: the record whose id matches the
update object is patched, all others are untouched. -/
def updatePlatform (store : List Platform) (patch : PlatformUpdate) : List Platform :=
  store.map (fun platform => if platform.id == patch.id then applyUpdate platform patch else platform)

/-- The `updatedNames` computation of the single-piece visibility toggle
(`cm-platform-piece.controller.ts` lines 127-143, identical in
`cmPlatformPieceService.togglePieceVisibility`): a null list defaults to `[]`
and a null behavior to BLOCKED; under BLOCKED hiding appends the name and
showing removes it, under ALLOWED showing appends the name and hiding
removes it; in every other case the list is returned as it was. -/
def togglePieceVisibilityNames (platform : Platform) (pieceName : String) (visible : Bool) :
    List String :=
  let currentNames := platform.filteredPieceNames.getD []
  let behavior := platform.filteredPieceBehavior.getD FilteredPieceBehavior.BLOCKED
  if behavior = FilteredPieceBehavior.BLOCKED then
    if !visible && !(currentNames.contains pieceName) then
      currentNames ++ [pieceName]
    else if visible && currentNames.contains pieceName then
      currentNames.filter (fun name => !(name == pieceName))
    else
      currentNames
  else
    if visible && !(currentNames.contains pieceName) then
      currentNames ++ [pieceName]
    else if !visible && currentNames.contains pieceName then
      currentNames.filter (fun name => !(name == pieceName))
    else
      currentNames

/-- Configuration-level effect of the toggle endpoint on the platform record:
the handler issues `platformService.update` with only `filteredPieceNames`
set (`cm-platform-piece.controller.ts` lines 145-149). This is the
`setVisibility(cfg, pieceName, visible)` operation of the specification. -/
def togglePieceVisibility (platform : Platform) (pieceName : String) (visible : Bool) : Platform :=
  applyUpdate platform
    { id := platform.id
      filteredPieceNames := some (togglePieceVisibilityNames platform pieceName visible)
      filteredPieceBehavior := none }

/-- `isPlatformAdmin` helper: fetch the principal's user record
(`userService.getOneOrFail`) and compare its platform role to ADMIN. -/
def isPlatformAdmin (users : String → Option User) (principalId : String) :
    Except ErrorCode Bool :=
  match users principalId with
  | none => Except.error ErrorCode.ENTITY_NOT_FOUND
  | some user => Except.ok (user.platformRole == PlatformRole.ADMIN)

/-- GET filtered-pieces-configuration handler: admin check first, then fetch
the principal's platform and return its configuration with null columns
defaulted (`cm-platform-piece.controller.ts` lines 56-75). -/
def getFilteredPiecesConfig (users : String → Option User) (store : List Platform)
    (principal : Principal) : Except ErrorCode FilteredPiecesConfig :=
  match isPlatformAdmin users principal.id with
  | Except.error e => Except.error e
  | Except.ok isAdmin =>
    if !isAdmin then
      Except.error ErrorCode.AUTHORIZATION
    else
      match getOneOrThrow store principal.platformId with
      | Except.error e => Except.error e
      | Except.ok platform =>
        Except.ok
          { filteredPieceNames := platform.filteredPieceNames.getD []
            filteredPieceBehavior :=
              platform.filteredPieceBehavior.getD FilteredPieceBehavior.BLOCKED }

/-- PATCH filtered-pieces-configuration handler (full replace): admin check
first, then a platform update writing both configuration columns
(`cm-platform-piece.controller.ts` lines 78-103). Returns the updated store
and the success flag. -/
def updateFilteredPieces (users : String → Option User) (store : List Platform)
    (principal : Principal) (filteredPieceNames : List String)
    (filteredPieceBehavior : FilteredPieceBehavior) :
    Except ErrorCode (List Platform × Bool) :=
  match isPlatformAdmin users principal.id with
  | Except.error e => Except.error e
  | Except.ok isAdmin =>
    if !isAdmin then
      Except.error ErrorCode.AUTHORIZATION
    else
      Except.ok
        (updatePlatform store
          { id := principal.platformId
            filteredPieceNames := some filteredPieceNames
            filteredPieceBehavior := some filteredPieceBehavior },
          true)

/-- PATCH single-piece visibility handler: admin check first, then fetch the
principal's platform, compute the toggled name list, and issue a platform
update writing only `filteredPieceNames`
(`cm-platform-piece.controller.ts` lines 106-152). Returns the updated store
and the returned `filteredPieceNames`. -/
def updatePieceVisibility (users : String → Option User) (store : List Platform)
    (principal : Principal) (pieceName : String) (visible : Bool) :
    Except ErrorCode (List Platform × List String) :=
  match isPlatformAdmin users principal.id with
  | Except.error e => Except.error e
  | Except.ok isAdmin =>
    if !isAdmin then
      Except.error ErrorCode.AUTHORIZATION
    else
      match getOneOrThrow store principal.platformId with
      | Except.error e => Except.error e
      | Except.ok platform =>
        let updatedNames := togglePieceVisibilityNames platform pieceName visible
        Except.ok
          (updatePlatform store
            { id := principal.platformId
              filteredPieceNames := some updatedNames
              filteredPieceBehavior := none },
            updatedNames)

/-- Store visible to the system after a call of the replace handler: a thrown
error leaves the store as it was. -/
def runUpdateFilteredPieces (users : String → Option User) (store : List Platform)
    (principal : Principal) (filteredPieceNames : List String)
    (filteredPieceBehavior : FilteredPieceBehavior) : List Platform :=
  match updateFilteredPieces users store principal filteredPieceNames filteredPieceBehavior with
  | Except.ok (newStore, _) => newStore
  | Except.error _ => store

/-- Store visible to the system after a call of the single-piece toggle
handler: a thrown error leaves the store as it was. -/
def runUpdatePieceVisibility (users : String → Option User) (store : List Platform)
    (principal : Principal) (pieceName : String) (visible : Bool) : List Platform :=
  match updatePieceVisibility users store principal pieceName visible with
  | Except.ok (newStore, _) => newStore
  | Except.error _ => store

/-- Modelled from the spec: insert a key into an already ascending list,
keeping it ascending (ties keep the later key after the earlier one, matching
the stable tie-break of specification section 4.2 step 4). -/
def insertSorted (key : Nat) : List Nat → List Nat
  | [] => [key]
  | x :: xs => if key ≤ x then key :: x :: xs else x :: insertSorted key xs

/-- Modelled from the spec: sort the new items ascending by item key
(specification section 4.2 step 4). Insertion from the right keeps the
relative order of equal keys. -/
def sortAsc : List Nat → List Nat
  | [] => []
  | x :: xs => insertSorted x (sortAsc xs)

/-- Modelled from the spec: steps 2-4 of the polling algorithm (section 4.2).
The Trigger Poll Coordinator itself is absent from the corpus. Item keys are
the ordering/dedup keys (epoch milliseconds for TIMEBASED, ordinal key for
LAST_ITEM; both strategies share this comparison structure). Items with
`itemKey <= watermark` are discarded and the remainder is sorted
ascending. -/
def newItems (watermark : Nat) (fetched : List Nat) : List Nat :=
  sortAsc (fetched.filter (fun key => watermark < key))

/-- Modelled from the spec: the result of one poll tick, the emitted item
keys in emission order and the committed watermark. -/
structure PollOutcome where
  emitted : List Nat
  watermark : Nat
deriving DecidableEq, Repr

/-- Modelled from the spec: one poll tick (section 4.2 steps 1-6 and the
partial-success rule of section 7). `okCount` is the number of items the
flow-execution collaborator accepts before the first emission failure
(`okCount` at least the batch length means full success); emission stops
there, and the committed watermark is the maximum of the previous watermark
and every emitted key, so a partial batch advances only to the last
successfully emitted item. -/
def pollStep (watermark : Nat) (fetched : List Nat) (okCount : Nat) : PollOutcome :=
  let emitted := (newItems watermark fetched).take okCount
  { emitted := emitted, watermark := emitted.foldl max watermark }

/-- Modelled from the spec: a sequence of committed poll ticks for one
trigger, each poll given as the fetched item keys paired with its emission
success count; the committed watermark of each tick is the stored watermark
of the next. -/
def pollRun (watermark : Nat) (polls : List (List Nat × Nat)) : List PollOutcome :=
  match polls with
  | [] => []
  | (fetched, okCount) :: rest =>
    let outcome := pollStep watermark fetched okCount
    outcome :: pollRun outcome.watermark rest

/-- Fixture piece used by the concrete scenarios. -/
def slackPiece : PieceDescriptor :=
  { name := "slack", displayName := "Slack" }

/-- Fixture piece used by the concrete scenarios. -/
def sheetsPiece : PieceDescriptor :=
  { name := "sheets", displayName := "Google Sheets" }

/-- Fixture piece used by the concrete scenarios. -/
def gmailPiece : PieceDescriptor :=
  { name := "gmail", displayName := "Gmail" }

/-- Concrete configuration of specification scenarios 1 and 2:
`filteredPieceNames = ["slack", "sheets"]`, behavior BLOCKED. -/
def cfgScenario1 : Platform :=
  { id := "platform-1"
    name := "Acme"
    ownerId := "owner-1"
    filteredPieceNames := some ["slack", "sheets"]
    filteredPieceBehavior := some FilteredPieceBehavior.BLOCKED }

/-- Concrete configuration with ALLOWED behavior and an empty name list. -/
def cfgAllowedEmpty : Platform :=
  { id := "platform-2"
    name := "Acme"
    ownerId := "owner-1"
    filteredPieceNames := some []
    filteredPieceBehavior := some FilteredPieceBehavior.ALLOWED }

/-- Concrete configuration with ALLOWED behavior whose allow-list holds only
`"slack"`. -/
def cfgAllowedSlack : Platform :=
  { id := "platform-3"
    name := "Acme"
    ownerId := "owner-1"
    filteredPieceNames := some ["slack"]
    filteredPieceBehavior := some FilteredPieceBehavior.ALLOWED }

/-- Result record of scenario 2: scenario 1's platform after `slack` is made
visible. -/
def cfgScenario1Toggled : Platform :=
  { id := "platform-1"
    name := "Acme"
    ownerId := "owner-1"
    filteredPieceNames := some ["sheets"]
    filteredPieceBehavior := some FilteredPieceBehavior.BLOCKED }

/-- Fixture filtering request with `includeHidden` set. -/
def paramsHidden : FilterPiecesParams :=
  { platformId := some "platform-1"
    includeHidden := true
    pieces := [slackPiece, gmailPiece] }

/-- Fixture non-admin user. -/
def memberUser : User :=
  { id := "user-1", platformRole := PlatformRole.MEMBER }

/-- Fixture admin user. -/
def adminUser : User :=
  { id := "user-2", platformRole := PlatformRole.ADMIN }

/-!
Helper lemmas shared by the claim theorems.
-/

/-- A list always contains an element just appended to it. -/
theorem contains_append_self (l : List String) (a : String) : (l ++ [a]).contains a = true := by
  simp

/-- Filtering an element out of a list removes every occurrence of it. -/
theorem contains_filter_self (l : List String) (a : String) :
    (l.filter (fun x => !(x == a))).contains a = false := by
  simp

/-- Boolean membership is decidable propositional membership. -/
theorem contains_eq_mem (l : List String) (a : String) : l.contains a = decide (a ∈ l) :=
  List.elem_eq_mem a l

/-- Appending one name does not change membership of a different name. -/
theorem contains_append_other (l : List String) (a b : String) (h : b ≠ a) :
    (l ++ [a]).contains b = l.contains b := by
  rw [contains_eq_mem, contains_eq_mem, decide_eq_decide]
  simp [h]

/-- Filtering one name out does not change membership of a different name. -/
theorem contains_filter_other (l : List String) (a b : String) (h : b ≠ a) :
    (l.filter (fun x => !(x == a))).contains b = l.contains b := by
  rw [contains_eq_mem, contains_eq_mem, decide_eq_decide]
  simp [List.mem_filter, h]

/-- Membership in the resolver output is membership in the candidates plus
visibility of the name: `isVisible` agrees with the filtering operation. -/
theorem mem_resolvePieces (platform : Platform) (pieces : List PieceDescriptor)
    (pc : PieceDescriptor) :
    pc ∈ resolvePieces platform pieces ↔ pc ∈ pieces ∧ isVisible platform pc.name = true := by
  unfold resolvePieces isVisible
  cases hnames : platform.filteredPieceNames with
  | none => simp
  | some l =>
    by_cases hempty : l.isEmpty
    · simp [hempty]
    · by_cases hbeh : platform.filteredPieceBehavior = some FilteredPieceBehavior.ALLOWED
      · simp [hempty, hbeh, List.mem_filter]
      · simp [hempty, hbeh, List.mem_filter]

/-- Under BLOCKED (or absent) behavior, a name is visible exactly when it is
not in the stored list (a null list defaults to empty). -/
theorem isVisible_blocked (platform : Platform) (q : String)
    (h : platform.filteredPieceBehavior.getD FilteredPieceBehavior.BLOCKED
      = FilteredPieceBehavior.BLOCKED) :
    isVisible platform q = !((platform.filteredPieceNames.getD []).contains q) := by
  have hbeh : platform.filteredPieceBehavior ≠ some FilteredPieceBehavior.ALLOWED := by
    intro hc
    rw [hc] at h
    simp at h
  unfold isVisible
  cases hnames : platform.filteredPieceNames with
  | none => simp
  | some l =>
    by_cases hempty : l.isEmpty
    · rw [List.isEmpty_iff] at hempty
      subst hempty
      simp
    · simp [hempty, hbeh]

/-- Under ALLOWED behavior with a non-empty stored list, a name is visible
exactly when it is in the list. -/
theorem isVisible_allowed (platform : Platform) (q : String) (l : List String)
    (hnames : platform.filteredPieceNames = some l) (hne : l ≠ [])
    (hbeh : platform.filteredPieceBehavior = some FilteredPieceBehavior.ALLOWED) :
    isVisible platform q = l.contains q := by
  unfold isVisible
  rw [hnames]
  simp [hne, hbeh]

/-- The toggled configuration stores exactly the toggled name list. -/
theorem togglePieceVisibility_names (platform : Platform) (pieceName : String) (visible : Bool) :
    (togglePieceVisibility platform pieceName visible).filteredPieceNames =
      some (togglePieceVisibilityNames platform pieceName visible) := rfl

/-- The toggle endpoint's update object omits `filteredPieceBehavior`, so the
stored behavior is untouched. -/
theorem togglePieceVisibility_behavior (platform : Platform) (pieceName : String)
    (visible : Bool) :
    (togglePieceVisibility platform pieceName visible).filteredPieceBehavior =
      platform.filteredPieceBehavior := rfl

/-- Record shape of the toggled configuration: id and the untouched columns
are carried over, `filteredPieceNames` is replaced by the toggled list. -/
theorem togglePieceVisibility_eq (platform : Platform) (pieceName : String) (visible : Bool) :
    togglePieceVisibility platform pieceName visible =
      { id := platform.id
        name := platform.name
        ownerId := platform.ownerId
        filteredPieceNames := some (togglePieceVisibilityNames platform pieceName visible)
        filteredPieceBehavior := platform.filteredPieceBehavior } := rfl

/-- Membership of the toggled name in the toggled list: the complement of the
desired visibility under BLOCKED, the desired visibility itself under
ALLOWED. -/
theorem toggle_contains_self (platform : Platform) (pieceName : String) (visible : Bool) :
    (togglePieceVisibilityNames platform pieceName visible).contains pieceName =
      (if platform.filteredPieceBehavior.getD FilteredPieceBehavior.BLOCKED
          = FilteredPieceBehavior.BLOCKED then !visible else visible) := by
  unfold togglePieceVisibilityNames
  cases hbeh : platform.filteredPieceBehavior.getD FilteredPieceBehavior.BLOCKED <;>
    cases visible <;>
      by_cases hc : pieceName ∈ platform.filteredPieceNames.getD [] <;>
        simp [hbeh, hc, List.mem_filter]

/-- The toggle does not change membership of any other name in the list. -/
theorem toggle_contains_other (platform : Platform) (pieceName other : String) (visible : Bool)
    (h : other ≠ pieceName) :
    (togglePieceVisibilityNames platform pieceName visible).contains other =
      (platform.filteredPieceNames.getD []).contains other := by
  unfold togglePieceVisibilityNames
  cases hbeh : platform.filteredPieceBehavior.getD FilteredPieceBehavior.BLOCKED <;>
    cases visible <;>
      by_cases hc : pieceName ∈ platform.filteredPieceNames.getD [] <;>
        simp [hbeh, hc, List.mem_filter, List.mem_append, h]

/-!
Claim theorems.
-/

/-- Claim C1, counterexample: with ALLOWED behavior and an empty
`filteredPieceNames`, the claim demands the empty result, but the code's
empty-list guard returns every candidate unchanged. -/
theorem c1_counterexample :
    resolvePieces cfgAllowedEmpty [slackPiece] = [slackPiece] ∧
    resolvePieces cfgAllowedEmpty [slackPiece] ≠ [] := by
  constructor <;> decide

/-- Claim C1 (amended): when `filteredPieceNames` is empty or absent, the
filtering operation returns all candidate pieces unchanged under both
behaviors; the code treats ALLOWED with an empty list as unrestricted, not as
"nothing allowed". -/
theorem c1_empty_list_filtering (platform : Platform) (pieces : List PieceDescriptor)
    (h : platform.filteredPieceNames = none ∨ platform.filteredPieceNames = some []) :
    resolvePieces platform pieces = pieces := by
  unfold resolvePieces
  rcases h with h | h <;> rw [h] <;> simp

/-- Claim C1 witness: the amended theorem applied to the concrete ALLOWED
configuration with an empty list. -/
theorem c1_witness : resolvePieces cfgAllowedEmpty [slackPiece] = [slackPiece] :=
  c1_empty_list_filtering cfgAllowedEmpty [slackPiece] (Or.inr rfl)

/-- Claim C2: with a non-empty `filteredPieceNames`, a candidate is kept
exactly when its name is not in the list under BLOCKED and exactly when its
name is in the list under ALLOWED; concretely, scenario 1 keeps only
`gmail`. -/
theorem c2_nonempty_filtering :
    (∀ (platform : Platform) (l : List String) (pieces : List PieceDescriptor)
        (pc : PieceDescriptor),
        platform.filteredPieceNames = some l → l ≠ [] →
        ((platform.filteredPieceBehavior = some FilteredPieceBehavior.BLOCKED →
            (pc ∈ resolvePieces platform pieces ↔ pc ∈ pieces ∧ pc.name ∉ l)) ∧
         (platform.filteredPieceBehavior = some FilteredPieceBehavior.ALLOWED →
            (pc ∈ resolvePieces platform pieces ↔ pc ∈ pieces ∧ pc.name ∈ l)))) ∧
    resolvePieces cfgScenario1 [slackPiece, sheetsPiece, gmailPiece] = [gmailPiece] := by
  constructor
  · intro platform l pieces pc hnames hne
    constructor
    · intro hbeh
      unfold resolvePieces
      rw [hnames]
      simp [hne, hbeh, List.mem_filter]
    · intro hbeh
      unfold resolvePieces
      rw [hnames]
      simp [hne, hbeh, List.mem_filter]
  · decide

/-- Claim C2 witness: the general part applied to scenario 1 and the `gmail`
candidate. -/
theorem c2_witness :
    gmailPiece ∈ resolvePieces cfgScenario1 [slackPiece, sheetsPiece, gmailPiece] := by
  have h := (c2_nonempty_filtering.1 cfgScenario1 ["slack", "sheets"]
    [slackPiece, sheetsPiece, gmailPiece] gmailPiece rfl (by decide)).1 rfl
  exact h.mpr ⟨by decide, by decide⟩

/-- Claim C3, counterexample: with ALLOWED behavior and allow-list
`["slack"]`, hiding `slack` empties the list, and the code's empty-list rule
then makes every piece — including `slack` — visible again, so the toggled
visibility is not the desired one. -/
theorem c3_counterexample :
    ¬ (isVisible (togglePieceVisibility cfgAllowedSlack "slack" false) "slack" = false) := by
  decide

/-- Claim C3 (amended): the toggled piece ends in the desired visibility and
no other piece's visibility changes, except when behavior is ALLOWED and the
toggle starts from or produces an empty `filteredPieceNames` (there the
code's empty-list-means-unrestricted rule overrides the allow-list
reading). -/
theorem c3_toggle_consistency (platform : Platform) (pieceName : String) (visible : Bool)
    (h : platform.filteredPieceBehavior.getD FilteredPieceBehavior.BLOCKED
        = FilteredPieceBehavior.BLOCKED ∨
      (platform.filteredPieceNames.getD [] ≠ [] ∧
        togglePieceVisibilityNames platform pieceName visible ≠ [])) :
    isVisible (togglePieceVisibility platform pieceName visible) pieceName = visible ∧
    ∀ other, other ≠ pieceName →
      isVisible (togglePieceVisibility platform pieceName visible) other =
        isVisible platform other := by
  have hn : (togglePieceVisibility platform pieceName visible).filteredPieceNames.getD [] =
      togglePieceVisibilityNames platform pieceName visible := rfl
  cases hbeh : platform.filteredPieceBehavior.getD FilteredPieceBehavior.BLOCKED with
  | BLOCKED =>
    have hbeh2 : (togglePieceVisibility platform pieceName visible).filteredPieceBehavior.getD
        FilteredPieceBehavior.BLOCKED = FilteredPieceBehavior.BLOCKED := by
      rw [togglePieceVisibility_behavior]
      exact hbeh
    constructor
    · rw [isVisible_blocked _ _ hbeh2, hn, toggle_contains_self, if_pos hbeh]
      simp
    · intro other hother
      rw [isVisible_blocked _ _ hbeh2, isVisible_blocked _ _ hbeh, hn,
        toggle_contains_other _ _ _ _ hother]
  | ALLOWED =>
    have hr : platform.filteredPieceNames.getD [] ≠ [] ∧
        togglePieceVisibilityNames platform pieceName visible ≠ [] := by
      rcases h with h | h
      · rw [hbeh] at h
        exact absurd h (by decide)
      · exact h
    obtain ⟨hne, hne2⟩ := hr
    have hsome : platform.filteredPieceBehavior = some FilteredPieceBehavior.ALLOWED := by
      cases hb : platform.filteredPieceBehavior with
      | none =>
        rw [hb] at hbeh
        simp at hbeh
      | some b =>
        cases b with
        | ALLOWED => rfl
        | BLOCKED =>
          rw [hb] at hbeh
          simp at hbeh
    obtain ⟨l0, hl0⟩ : ∃ l0, platform.filteredPieceNames = some l0 := by
      cases hnn : platform.filteredPieceNames with
      | none =>
        rw [hnn] at hne
        simp at hne
      | some l0 => exact ⟨l0, rfl⟩
    have hgd : platform.filteredPieceNames.getD [] = l0 := by
      rw [hl0]
      rfl
    have hl0ne : l0 ≠ [] := by
      rw [hgd] at hne
      exact hne
    have hbeh2 : (togglePieceVisibility platform pieceName visible).filteredPieceBehavior =
        some FilteredPieceBehavior.ALLOWED := by
      rw [togglePieceVisibility_behavior]
      exact hsome
    constructor
    · rw [isVisible_allowed _ _ _ (togglePieceVisibility_names platform pieceName visible)
        hne2 hbeh2, toggle_contains_self, if_neg (by rw [hbeh]; decide)]
    · intro other hother
      rw [isVisible_allowed _ _ _ (togglePieceVisibility_names platform pieceName visible)
          hne2 hbeh2, isVisible_allowed _ _ _ hl0 hl0ne hsome,
        toggle_contains_other _ _ _ _ hother, hgd]

/-- Claim C3 witness: the amended theorem applied to scenario 1 (BLOCKED
list `["slack", "sheets"]`), making `slack` visible and checking `gmail` is
untouched. -/
theorem c3_witness :
    isVisible (togglePieceVisibility cfgScenario1 "slack" true) "slack" = true ∧
    isVisible (togglePieceVisibility cfgScenario1 "slack" true) "gmail" =
      isVisible cfgScenario1 "gmail" := by
  have h := c3_toggle_consistency cfgScenario1 "slack" true (Or.inl rfl)
  exact ⟨h.1, h.2 "gmail" (by decide)⟩

/-- Claim C4, counterexample: with ALLOWED behavior and an empty list,
`slack` is already visible (empty-list rule), yet the toggle does not return
the configuration unchanged — it writes `filteredPieceNames = ["slack"]`. -/
theorem c4_counterexample :
    isVisible cfgAllowedEmpty "slack" = true ∧
    togglePieceVisibility cfgAllowedEmpty "slack" true ≠ cfgAllowedEmpty := by
  constructor
  · decide
  · decide

/-- Claim C4 (amended): applying the toggle twice with the same arguments
always equals applying it once; and the toggle returns the configuration
unchanged when the stored list is present and — unless behavior is ALLOWED
with an empty list, where the empty-list rule makes the piece visible without
its name being stored — the piece is already in the desired visibility
state. -/
theorem c4_toggle_idempotent (platform : Platform) (pieceName : String) (visible : Bool) :
    togglePieceVisibility (togglePieceVisibility platform pieceName visible) pieceName visible =
      togglePieceVisibility platform pieceName visible ∧
    ∀ l, platform.filteredPieceNames = some l →
      (platform.filteredPieceBehavior = some FilteredPieceBehavior.ALLOWED → l ≠ []) →
      isVisible platform pieceName = visible →
      togglePieceVisibility platform pieceName visible = platform := by
  constructor
  · have hn : (togglePieceVisibility platform pieceName visible).filteredPieceNames.getD [] =
        togglePieceVisibilityNames platform pieceName visible := rfl
    have hb : (togglePieceVisibility platform pieceName visible).filteredPieceBehavior =
        platform.filteredPieceBehavior := rfl
    have hstable : togglePieceVisibilityNames (togglePieceVisibility platform pieceName visible)
        pieceName visible = togglePieceVisibilityNames platform pieceName visible := by
      have hself := toggle_contains_self platform pieceName visible
      conv_lhs => unfold togglePieceVisibilityNames
      rw [hn, hb]
      cases hbeh : platform.filteredPieceBehavior.getD FilteredPieceBehavior.BLOCKED <;>
        cases visible <;>
          simp [hbeh] at hself <;>
            simp [hbeh, hself]
    rw [togglePieceVisibility_eq (togglePieceVisibility platform pieceName visible), hstable,
      togglePieceVisibility_eq platform]
  · intro l hl hallow hvis
    have hgd : platform.filteredPieceNames.getD [] = l := by
      rw [hl]
      rfl
    have hnames1 : togglePieceVisibilityNames platform pieceName visible = l := by
      unfold togglePieceVisibilityNames
      cases hbeh : platform.filteredPieceBehavior.getD FilteredPieceBehavior.BLOCKED with
      | BLOCKED =>
        have hv := isVisible_blocked platform pieceName hbeh
        rw [hvis, hgd] at hv
        cases visible <;> simp at hv <;> simp [hv, hgd]
      | ALLOWED =>
        have hsome : platform.filteredPieceBehavior = some FilteredPieceBehavior.ALLOWED := by
          cases hbb : platform.filteredPieceBehavior with
          | none =>
            rw [hbb] at hbeh
            simp at hbeh
          | some b =>
            cases b with
            | ALLOWED => rfl
            | BLOCKED =>
              rw [hbb] at hbeh
              simp at hbeh
        have hlne : l ≠ [] := hallow hsome
        have hv := isVisible_allowed platform pieceName l hl hlne hsome
        rw [hvis] at hv
        cases visible <;> simp at hv <;> simp [hbeh, hv, hgd]
    rw [togglePieceVisibility_eq platform, hnames1, ← hl]

/-- Claim C4 witness: idempotence and the no-op case of the amended theorem
at scenario 1 with the already visible piece `gmail`. -/
theorem c4_witness :
    togglePieceVisibility (togglePieceVisibility cfgScenario1 "gmail" true) "gmail" true =
      togglePieceVisibility cfgScenario1 "gmail" true ∧
    togglePieceVisibility cfgScenario1 "gmail" true = cfgScenario1 := by
  have h := c4_toggle_idempotent cfgScenario1 "gmail" true
  exact ⟨h.1, h.2 ["slack", "sheets"] rfl (by decide) (by decide)⟩

/-- Claim C5: after the toggle the piece's membership in the stored list is
the complement of the desired visibility under BLOCKED and the desired
visibility itself under ALLOWED, no other name's membership changes, and
scenario 2 concretely yields `["sheets"]`. -/
theorem c5_toggle_membership (platform : Platform) (pieceName other : String) (visible : Bool) :
    ((platform.filteredPieceBehavior.getD FilteredPieceBehavior.BLOCKED
        = FilteredPieceBehavior.BLOCKED →
      (togglePieceVisibilityNames platform pieceName visible).contains pieceName = !visible) ∧
     (platform.filteredPieceBehavior.getD FilteredPieceBehavior.BLOCKED
        = FilteredPieceBehavior.ALLOWED →
      (togglePieceVisibilityNames platform pieceName visible).contains pieceName = visible) ∧
     (other ≠ pieceName →
      (togglePieceVisibilityNames platform pieceName visible).contains other =
        (platform.filteredPieceNames.getD []).contains other)) ∧
    togglePieceVisibilityNames cfgScenario1 "slack" true = ["sheets"] := by
  refine ⟨⟨?_, ?_, ?_⟩, by decide⟩
  · intro hb
    rw [toggle_contains_self, if_pos hb]
  · intro hb
    rw [toggle_contains_self, if_neg (by rw [hb]; decide)]
  · intro hother
    exact toggle_contains_other platform pieceName other visible hother

/-- Claim C5 witness: the membership characterisation and the concrete
scenario at scenario 1, toggling `slack` visible and checking `gmail`. -/
theorem c5_witness :
    (togglePieceVisibilityNames cfgScenario1 "slack" true).contains "slack" = !true ∧
    (togglePieceVisibilityNames cfgScenario1 "slack" true).contains "gmail" =
      (cfgScenario1.filteredPieceNames.getD []).contains "gmail" ∧
    togglePieceVisibilityNames cfgScenario1 "slack" true = ["sheets"] := by
  have h := c5_toggle_membership cfgScenario1 "slack" "gmail" true
  exact ⟨h.1.1 rfl, h.1.2.2 (by decide), h.2⟩

/-- Pointwise-preserved projections are preserved by the store-level platform
update. -/
theorem updatePlatform_map_eq {α : Type} (store : List Platform) (patch : PlatformUpdate)
    (f : Platform → α) (hf : ∀ platform, f (applyUpdate platform patch) = f platform) :
    (updatePlatform store patch).map f = store.map f := by
  unfold updatePlatform
  rw [List.map_map]
  apply List.map_congr_left
  intro platform _
  by_cases hid : platform.id = patch.id <;> simp [hid, hf]

/-- Claim C6: a principal whose user record is not a platform admin is
rejected with an authorization error by all three visibility-configuration
endpoints, and the rejected calls leave the platform store — hence every
platform's `filteredPieceNames` and `filteredPieceBehavior` — unchanged. -/
theorem c6_non_admin_rejected (users : String → Option User) (store : List Platform)
    (principal : Principal) (user : User) (filteredPieceNames : List String)
    (filteredPieceBehavior : FilteredPieceBehavior) (pieceName : String) (visible : Bool)
    (hu : users principal.id = some user) (hrole : user.platformRole ≠ PlatformRole.ADMIN) :
    getFilteredPiecesConfig users store principal = Except.error ErrorCode.AUTHORIZATION ∧
    updateFilteredPieces users store principal filteredPieceNames filteredPieceBehavior =
      Except.error ErrorCode.AUTHORIZATION ∧
    updatePieceVisibility users store principal pieceName visible =
      Except.error ErrorCode.AUTHORIZATION ∧
    runUpdateFilteredPieces users store principal filteredPieceNames filteredPieceBehavior =
      store ∧
    runUpdatePieceVisibility users store principal pieceName visible = store := by
  have hadmin : isPlatformAdmin users principal.id = Except.ok false := by
    unfold isPlatformAdmin
    rw [hu]
    simp [hrole]
  have h1 : getFilteredPiecesConfig users store principal =
      Except.error ErrorCode.AUTHORIZATION := by
    unfold getFilteredPiecesConfig
    rw [hadmin]
    rfl
  have h2 : updateFilteredPieces users store principal filteredPieceNames
      filteredPieceBehavior = Except.error ErrorCode.AUTHORIZATION := by
    unfold updateFilteredPieces
    rw [hadmin]
    rfl
  have h3 : updatePieceVisibility users store principal pieceName visible =
      Except.error ErrorCode.AUTHORIZATION := by
    unfold updatePieceVisibility
    rw [hadmin]
    rfl
  refine ⟨h1, h2, h3, ?_, ?_⟩
  · unfold runUpdateFilteredPieces
    rw [h2]
  · unfold runUpdatePieceVisibility
    rw [h3]


/-- Claim C6 witness: the theorem applied to a concrete non-admin principal
against a one-platform store. -/
theorem c6_witness :
    getFilteredPiecesConfig (fun _ => some memberUser) [cfgScenario1] ⟨"user-1", "platform-1"⟩ =
      Except.error ErrorCode.AUTHORIZATION ∧
    updateFilteredPieces (fun _ => some memberUser) [cfgScenario1] ⟨"user-1", "platform-1"⟩
      [] FilteredPieceBehavior.BLOCKED = Except.error ErrorCode.AUTHORIZATION ∧
    updatePieceVisibility (fun _ => some memberUser) [cfgScenario1] ⟨"user-1", "platform-1"⟩
      "slack" true = Except.error ErrorCode.AUTHORIZATION ∧
    runUpdateFilteredPieces (fun _ => some memberUser) [cfgScenario1] ⟨"user-1", "platform-1"⟩
      [] FilteredPieceBehavior.BLOCKED = [cfgScenario1] ∧
    runUpdatePieceVisibility (fun _ => some memberUser) [cfgScenario1] ⟨"user-1", "platform-1"⟩
      "slack" true = [cfgScenario1] :=
  c6_non_admin_rejected (fun _ => some memberUser) [cfgScenario1] ⟨"user-1", "platform-1"⟩
    memberUser [] FilteredPieceBehavior.BLOCKED "slack" true rfl (by decide)

/-- Claim C9: when `includeHidden` is set or `platformId` is absent, the
filtering hook answers with the default (unfiltered) piece set and ignores
the platform store — so the platform's allow/block configuration cannot
influence the result. -/
theorem c9_bypass (store store2 : List Platform) (params : FilterPiecesParams)
    (h : params.includeHidden = true ∨ params.platformId = none) :
    filterPieces store params = Except.ok (defaultFilterPieces params) ∧
    defaultFilterPieces params = params.pieces ∧
    filterPieces store params = filterPieces store2 params := by
  have hcond : (params.includeHidden || params.platformId.isNone) = true := by
    rcases h with h | h <;> simp [h]
  have hmain : ∀ s : List Platform,
      filterPieces s params = Except.ok (defaultFilterPieces params) := by
    intro s
    unfold filterPieces
    rw [if_pos hcond]
  exact ⟨hmain store, rfl, by rw [hmain store, hmain store2]⟩

/-- Claim C9 witness: the theorem applied to a request with `includeHidden`
set, compared across the empty store and a store with a BLOCKED platform. -/
theorem c9_witness :
    filterPieces [] paramsHidden = Except.ok (defaultFilterPieces paramsHidden) ∧
    defaultFilterPieces paramsHidden = paramsHidden.pieces ∧
    filterPieces [] paramsHidden = filterPieces [cfgScenario1] paramsHidden :=
  c9_bypass [] [cfgScenario1] paramsHidden (Or.inl rfl)

/-- Claim C10: a successful single-piece visibility toggle changes at most
`filteredPieceNames`: every platform's id, `filteredPieceBehavior`, and the
untouched columns (`name`, `ownerId`) read the same before and after. -/
theorem c10_update_frame (users : String → Option User) (store store2 : List Platform)
    (principal : Principal) (pieceName : String) (visible : Bool) (updatedNames : List String)
    (h : updatePieceVisibility users store principal pieceName visible =
      Except.ok (store2, updatedNames)) :
    store2.map Platform.id = store.map Platform.id ∧
    store2.map Platform.filteredPieceBehavior = store.map Platform.filteredPieceBehavior ∧
    store2.map Platform.name = store.map Platform.name ∧
    store2.map Platform.ownerId = store.map Platform.ownerId := by
  cases hu : users principal.id with
  | none =>
    have hadmin : isPlatformAdmin users principal.id =
        Except.error ErrorCode.ENTITY_NOT_FOUND := by
      unfold isPlatformAdmin
      rw [hu]
    unfold updatePieceVisibility at h
    rw [hadmin] at h
    exact absurd h (by simp)
  | some user =>
    have hadmin : isPlatformAdmin users principal.id =
        Except.ok (user.platformRole == PlatformRole.ADMIN) := by
      unfold isPlatformAdmin
      rw [hu]
    unfold updatePieceVisibility at h
    rw [hadmin] at h
    cases hrole : user.platformRole == PlatformRole.ADMIN with
    | false =>
      rw [hrole] at h
      exact absurd h (by simp)
    | true =>
      rw [hrole] at h
      cases hfind : getOneOrThrow store principal.platformId with
      | error e =>
        rw [hfind] at h
        exact absurd h (by simp)
      | ok platform =>
        rw [hfind] at h
        simp at h
        obtain ⟨hstore, _⟩ := h
        subst hstore
        exact ⟨updatePlatform_map_eq store _ _ (fun pl => rfl),
          updatePlatform_map_eq store _ _ (fun pl => rfl),
          updatePlatform_map_eq store _ _ (fun pl => rfl),
          updatePlatform_map_eq store _ _ (fun pl => rfl)⟩

/-- Claim C10 witness: the theorem applied to a concrete successful toggle of
`slack` on scenario 1's platform by an admin. -/
theorem c10_witness :
    [cfgScenario1Toggled].map Platform.id = [cfgScenario1].map Platform.id ∧
    [cfgScenario1Toggled].map Platform.filteredPieceBehavior =
      [cfgScenario1].map Platform.filteredPieceBehavior ∧
    [cfgScenario1Toggled].map Platform.name = [cfgScenario1].map Platform.name ∧
    [cfgScenario1Toggled].map Platform.ownerId = [cfgScenario1].map Platform.ownerId :=
  c10_update_frame (fun _ => some adminUser) [cfgScenario1] [cfgScenario1Toggled]
    ⟨"user-2", "platform-1"⟩ "slack" true ["sheets"] (by rfl)

/-- The starting value never exceeds a fold of `max`. -/
theorem le_foldl_max (l : List Nat) (w : Nat) : w ≤ l.foldl max w := by
  induction l generalizing w with
  | nil => exact Nat.le_refl w
  | cons x xs ih => exact Nat.le_trans (Nat.le_max_left w x) (ih (max w x))

/-- Every list element is bounded by a fold of `max` over the list. -/
theorem mem_le_foldl_max (l : List Nat) : ∀ w x, x ∈ l → x ≤ l.foldl max w := by
  induction l with
  | nil =>
    intro w x hx
    cases hx
  | cons a as ih =>
    intro w x hx
    rcases List.mem_cons.mp hx with h | h
    · subst h
      exact Nat.le_trans (Nat.le_max_right w x) (le_foldl_max as (max w x))
    · exact ih (max w a) x h

/-- Membership through sorted insertion. -/
theorem mem_insertSorted (key a : Nat) (l : List Nat) :
    a ∈ insertSorted key l ↔ a = key ∨ a ∈ l := by
  induction l with
  | nil => simp [insertSorted]
  | cons x xs ih =>
    unfold insertSorted
    by_cases h : key ≤ x
    · simp [h, List.mem_cons]
    · simp [h, List.mem_cons, ih]
      tauto

/-- Sorting preserves membership. -/
theorem mem_sortAsc (a : Nat) (l : List Nat) : a ∈ sortAsc l ↔ a ∈ l := by
  induction l with
  | nil => simp [sortAsc]
  | cons x xs ih => simp [sortAsc, mem_insertSorted, ih]

/-- The new-item batch holds exactly the fetched keys above the watermark. -/
theorem mem_newItems (w : Nat) (fetched : List Nat) (a : Nat) :
    a ∈ newItems w fetched ↔ a ∈ fetched ∧ w < a := by
  unfold newItems
  rw [mem_sortAsc]
  simp [List.mem_filter]

/-- Every key emitted by a poll tick is strictly above the stored watermark
at poll time: items at or below the watermark are never emitted. -/
theorem pollStep_emitted_gt (w : Nat) (fetched : List Nat) (okCount : Nat) (x : Nat)
    (hx : x ∈ (pollStep w fetched okCount).emitted) : w < x := by
  have hx2 : x ∈ (newItems w fetched).take okCount := hx
  have hx3 : x ∈ newItems w fetched := List.take_subset okCount (newItems w fetched) hx2
  exact ((mem_newItems w fetched x).mp hx3).2

/-- A poll tick never moves the watermark backward. -/
theorem pollStep_watermark_ge (w : Nat) (fetched : List Nat) (okCount : Nat) :
    w ≤ (pollStep w fetched okCount).watermark :=
  le_foldl_max ((newItems w fetched).take okCount) w

/-- The committed watermark covers every key the tick emitted. -/
theorem pollStep_emitted_le (w : Nat) (fetched : List Nat) (okCount : Nat) (x : Nat)
    (hx : x ∈ (pollStep w fetched okCount).emitted) :
    x ≤ (pollStep w fetched okCount).watermark := by
  have hx2 : x ∈ (newItems w fetched).take okCount := hx
  exact mem_le_foldl_max ((newItems w fetched).take okCount) w x hx2

/-- Every key emitted anywhere in a run is strictly above the watermark the
run started from. -/
theorem pollRun_emitted_gt (polls : List (List Nat × Nat)) :
    ∀ w, ∀ outcome ∈ pollRun w polls, ∀ x ∈ outcome.emitted, w < x := by
  induction polls with
  | nil =>
    intro w outcome ho
    simp [pollRun] at ho
  | cons poll rest ih =>
    intro w outcome ho x hx
    obtain ⟨fetched, okCount⟩ := poll
    have ho2 : outcome ∈ pollStep w fetched okCount ::
        pollRun (pollStep w fetched okCount).watermark rest := ho
    rcases List.mem_cons.mp ho2 with h | h
    · subst h
      exact pollStep_emitted_gt w fetched okCount x hx
    · exact Nat.lt_of_le_of_lt (pollStep_watermark_ge w fetched okCount)
        (ih (pollStep w fetched okCount).watermark outcome h x hx)

/-- Claim C7: across any sequence of committed polls (full or partial
successes alike), the persisted watermark never decreases: each committed
watermark is at least the one stored before that poll. -/
theorem c7_watermark_monotone (watermark : Nat) (polls : List (List Nat × Nat)) :
    List.Chain' (fun a b => a ≤ b)
      (watermark :: (pollRun watermark polls).map PollOutcome.watermark) := by
  induction polls generalizing watermark with
  | nil => simp [pollRun]
  | cons poll rest ih =>
    obtain ⟨fetched, okCount⟩ := poll
    have hrun : pollRun watermark ((fetched, okCount) :: rest) =
        pollStep watermark fetched okCount ::
          pollRun (pollStep watermark fetched okCount).watermark rest := rfl
    rw [hrun, List.map_cons, List.chain'_cons]
    exact ⟨pollStep_watermark_ge watermark fetched okCount,
      ih (pollStep watermark fetched okCount).watermark⟩

/-- Claim C8: for a sequence of polls whose fetched item keys are
monotonically non-decreasing across the run, a key at or below the stored
watermark at poll time is never emitted, and no two distinct polls of the
run emit the same item key. -/
theorem c8_no_duplicate_emission (watermark : Nat) (polls : List (List Nat × Nat))
    (_hmono : List.Pairwise (fun a b => a ≤ b) (polls.map Prod.fst).flatten) :
    (∀ w fetched okCount x, x ∈ (pollStep w fetched okCount).emitted → w < x) ∧
    List.Pairwise (fun batch1 batch2 => ∀ key, key ∈ batch1 → key ∉ batch2)
      ((pollRun watermark polls).map PollOutcome.emitted) := by
  refine ⟨fun w fetched okCount x hx => pollStep_emitted_gt w fetched okCount x hx, ?_⟩
  clear _hmono
  induction polls generalizing watermark with
  | nil => simp [pollRun]
  | cons poll rest ih =>
    obtain ⟨fetched, okCount⟩ := poll
    have hrun : pollRun watermark ((fetched, okCount) :: rest) =
        pollStep watermark fetched okCount ::
          pollRun (pollStep watermark fetched okCount).watermark rest := rfl
    rw [hrun, List.map_cons, List.pairwise_cons]
    constructor
    · intro batch hbatch key hkey
      obtain ⟨outcome, ho, rfl⟩ := List.mem_map.mp hbatch
      intro hmem
      have hgt := pollRun_emitted_gt rest (pollStep watermark fetched okCount).watermark
        outcome ho key hmem
      have hle := pollStep_emitted_le watermark fetched okCount key hkey
      exact Nat.lt_irrefl key (Nat.lt_of_le_of_lt hle hgt)
    · exact ih (pollStep watermark fetched okCount).watermark

/-- Claim C8 witness: the theorem applied to stored watermark 1000 and two
committed polls with non-decreasing fetched keys, the first overlapping the
watermark. -/
theorem c8_witness :
    List.Pairwise (fun batch1 batch2 => ∀ key, key ∈ batch1 → key ∉ batch2)
      ((pollRun 1000 [([900, 1000, 1100, 1200], 5), ([1200, 1300], 5)]).map
        PollOutcome.emitted) :=
  (c8_no_duplicate_emission 1000 [([900, 1000, 1100, 1200], 5), ([1200, 1300], 5)]
    (by decide)).2
